import Mathlib

/-!
Verification of the Home Assistant Tuya sharing integration
(`homeassistant/components/tuya/__init__.py`).

The file shallowly embeds the adapter's lifecycle operations
(`async_setup_entry`, `async_unload_entry`, `async_remove_entry`,
`DeviceListener`, `TokenListener`) over an explicit state type.
Host-framework collaborators (the device registry, config-entry store)
and the vendor SDK `Manager` are not part of the repository's `src`
tree; where their behaviour matters it is modelled from the spec's
description of the external interfaces, and each such definition says so
in its doc comment.
-/

namespace Tuya

/-- Domain constant `DOMAIN` from `const.py` (the integration's domain key). -/
def DOMAIN : String := "tuya"

/-- Config key `CONF_APP_TYPE`, the legacy authentication marker. -/
def CONF_APP_TYPE : String := "tuya_app_type"

/-- Config key `CONF_USER_CODE`. -/
def CONF_USER_CODE : String := "user_code"

/-- Config key `CONF_TERMINAL_ID`. -/
def CONF_TERMINAL_ID : String := "terminal_id"

/-- Config key `CONF_ENDPOINT`. -/
def CONF_ENDPOINT : String := "endpoint"

/-- Config key `CONF_TOKEN_INFO`, under which the token blob is stored. -/
def CONF_TOKEN_INFO : String := "token_info"

/-- Opaque values held in a config entry's data mapping.  Credential
strings and token blobs are never inspected by the adapter, so a value is
either a string or an opaque blob tagged by a natural number. -/
inductive Val where
  | str (s : String)
  | blob (tag : Nat)
deriving DecidableEq, Repr

/-- Python `dict`s with string keys are embedded as association lists in
insertion order (real dicts have no duplicate keys; lookups below take
the first match, which agrees with dict semantics on such lists).
`alistGet` is `d[k]` as an optional lookup: first binding of `k`. -/
def alistGet {α : Type} : List (String × α) → String → Option α
  | [], _ => none
  | (k', v) :: rest, k => if k = k' then some v else alistGet rest k

/-- Dict store `d[k] = v` (and the merge `{**d, k: v}`): every key of `d`
keeps its position, with the binding of `k` overwritten; if `k` is
absent it is appended. -/
def alistSet {α : Type} (l : List (String × α)) (k : String) (v : α) :
    List (String × α) :=
  if l.any (fun p => p.1 = k) then
    l.map (fun p => if p.1 = k then (k, v) else p)
  else
    l ++ [(k, v)]

/-- Dict `d.pop(k)`. -/
def alistPop {α : Type} (l : List (String × α)) (k : String) :
    List (String × α) :=
  l.filter (fun p => p.1 != k)

/-- A config entry's data mapping: string keys to opaque values. -/
abbrev Dict := List (String × Val)

/-- Entry-data lookup `entry.data[k]`, as an option. -/
def dictGet (d : Dict) (k : String) : Option Val :=
  alistGet d k

/-- Entry-data merge `{**d, k: v}`. -/
def dictSet (d : Dict) (k : String) (v : Val) : Dict :=
  alistSet d k v

/-- A config entry: host-owned id plus its persisted data mapping. -/
structure ConfigEntry where
  entry_id : String
  data : Dict
deriving DecidableEq, Repr

/-- `TokenListener.update_token` (lines 197-200): builds
`{**self.entry.data, "token_info": token_info}` and hands it to the
host's `async_update_entry`.  This function is the data mapping written
back; the blob is stored verbatim, unvalidated. -/
def update_token (entry : ConfigEntry) (token_info : Val) : Dict :=
  dictSet entry.data "token_info" token_info

theorem alistGet_overwrite_self {α : Type} (d : List (String × α)) (k : String)
    (v : α) (h : ∃ p ∈ d, p.1 = k) :
    alistGet (d.map (fun p => if p.1 = k then (k, v) else p)) k = some v := by
  induction d with
  | nil => rcases h with ⟨p, hp, _⟩; cases hp
  | cons q rest ih =>
    rw [List.map_cons]
    by_cases hqk : q.1 = k
    · rw [if_pos hqk, alistGet, if_pos rfl]
    · rw [if_neg hqk, alistGet, if_neg (fun hk => hqk hk.symm)]
      rcases h with ⟨p, hp, hpk⟩
      rcases List.mem_cons.mp hp with hq | hrest
      · exact absurd (hq ▸ hpk) hqk
      · exact ih ⟨p, hrest, hpk⟩

theorem alistGet_overwrite_other {α : Type} (d : List (String × α))
    (k k' : String) (v : α) (hne : k' ≠ k) :
    alistGet (d.map (fun p => if p.1 = k then (k, v) else p)) k' = alistGet d k' := by
  induction d with
  | nil => rfl
  | cons q rest ih =>
    rw [List.map_cons]
    by_cases hqk : q.1 = k
    · rw [if_pos hqk, alistGet, if_neg hne, alistGet, hqk, if_neg hne]
      exact ih
    · rw [if_neg hqk, alistGet, alistGet]
      split
      · rfl
      · exact ih

theorem alistGet_append_single_self {α : Type} (d : List (String × α))
    (k : String) (v : α) (h : ∀ p ∈ d, p.1 ≠ k) :
    alistGet (d ++ [(k, v)]) k = some v := by
  induction d with
  | nil => simp [alistGet]
  | cons q rest ih =>
    have hqk : q.1 ≠ k := h q (List.mem_cons_self q rest)
    rw [List.cons_append, alistGet, if_neg (fun hk => hqk hk.symm)]
    exact ih (fun p hp => h p (List.mem_cons_of_mem q hp))

theorem alistGet_append_single_other {α : Type} (d : List (String × α))
    (k k' : String) (v : α) (hne : k' ≠ k) :
    alistGet (d ++ [(k, v)]) k' = alistGet d k' := by
  induction d with
  | nil => simp [alistGet, hne]
  | cons q rest ih =>
    rw [List.cons_append, alistGet, alistGet]
    split
    · rfl
    · exact ih

theorem alistGet_alistSet_self {α : Type} (d : List (String × α)) (k : String)
    (v : α) : alistGet (alistSet d k v) k = some v := by
  unfold alistSet
  split
  case isTrue h =>
    rcases List.any_eq_true.mp h with ⟨p, hp, hpk⟩
    exact alistGet_overwrite_self d k v ⟨p, hp, of_decide_eq_true hpk⟩
  case isFalse h =>
    refine alistGet_append_single_self d k v (fun p hp hpk => ?_)
    exact h (List.any_eq_true.mpr ⟨p, hp, decide_eq_true hpk⟩)

theorem alistGet_alistSet_other {α : Type} (d : List (String × α))
    (k k' : String) (v : α) (hne : k' ≠ k) :
    alistGet (alistSet d k v) k' = alistGet d k' := by
  unfold alistSet
  split
  · exact alistGet_overwrite_other d k k' v hne
  · exact alistGet_append_single_other d k k' v hne

theorem dictGet_dictSet_self (d : Dict) (k : String) (v : Val) :
    dictGet (dictSet d k v) k = some v :=
  alistGet_alistSet_self d k v

theorem dictGet_dictSet_other (d : Dict) (k k' : String) (v : Val)
    (hne : k' ≠ k) : dictGet (dictSet d k v) k' = dictGet d k' :=
  alistGet_alistSet_other d k k' v hne

/-- C5: the data written back by `update_token` is the prior mapping with
exactly the `token_info` key replaced by the delivered blob; every other
key is unchanged and the blob is stored verbatim. -/
theorem update_token_frame (entry : ConfigEntry) (token_info : Val) :
    dictGet (update_token entry token_info) "token_info" = some token_info ∧
      ∀ k : String, k ≠ "token_info" →
        dictGet (update_token entry token_info) k = dictGet entry.data k := by
  refine ⟨dictGet_dictSet_self _ _ _, fun k hk => ?_⟩
  exact dictGet_dictSet_other _ _ _ _ hk

/-- Witness for C5 at a concrete entry: the token blob lands under
`token_info` and an unrelated key keeps its old value. -/
theorem update_token_frame_witness :
    dictGet
        (update_token
          ⟨"e1", [("user_code", Val.str "u"), ("token_info", Val.blob 0)]⟩
          (Val.blob 7)) "token_info" = some (Val.blob 7) ∧
      dictGet
        (update_token
          ⟨"e1", [("user_code", Val.str "u"), ("token_info", Val.blob 0)]⟩
          (Val.blob 7)) "user_code" = some (Val.str "u") := by
  have h := update_token_frame
    ⟨"e1", [("user_code", Val.str "u"), ("token_info", Val.blob 0)]⟩
    (Val.blob 7)
  exact ⟨h.1, by rw [h.2 "user_code" (by decide)]; decide⟩

/-- Signal prefix `TUYA_HA_SIGNAL_UPDATE_ENTITY` from `const.py`. -/
def TUYA_HA_SIGNAL_UPDATE_ENTITY : String := "tuya_entry_update"

/-- Signal `TUYA_DISCOVERY_NEW` from `const.py`. -/
def TUYA_DISCOVERY_NEW : String := "tuya_discovery_new"

/-- A vendor `CustomerDevice` record as the adapter reads it: id, display
name, product name and an opaque status. -/
structure Device where
  id : String
  name : String
  product_name : String
  status : Nat
deriving DecidableEq, Repr

/-- The vendor manager's `device_map` (a dict deviceId → DeviceRecord),
embedded as the list of its records; real dicts carry each id once. -/
abbrev DeviceMap := List Device

/-- Dict lookup `device_map[i]` on the device map, as an option. -/
def dmGet (dm : DeviceMap) (i : String) : Option Device :=
  dm.find? (fun d => d.id == i)

/-- `i in device_map`. -/
def dmHas (dm : DeviceMap) (i : String) : Bool :=
  dm.any (fun d => d.id == i)

/-- A host device-registry entry: internal registry id plus the set of
`(domain, device_id)` identifiers it carries.  Modelled from the spec:
the host registry itself is an external collaborator (spec section 6). -/
structure DeviceEntry where
  internal_id : Nat
  identifiers : List (String × String)
deriving DecidableEq, Repr

/-- The host device registry: its entries and a counter producing fresh
internal ids.  Modelled from the spec (spec section 6). -/
structure DeviceRegistry where
  devices : List DeviceEntry
  next_id : Nat
deriving DecidableEq, Repr

/-- An identifier pair occurs somewhere in the registry. -/
def regHasIdent (reg : DeviceRegistry) (ident : String × String) : Prop :=
  ∃ e ∈ reg.devices, ident ∈ e.identifiers

instance (reg : DeviceRegistry) (ident : String × String) :
    Decidable (regHasIdent reg ident) := by
  unfold regHasIdent; infer_instance

namespace dr

/-- Modelled from the spec: host registry lookup-by-identifiers
(`dr.async_get_device(identifiers={(DOMAIN, device_id)})`) returns an
entry carrying the identifier, if any. -/
def async_get_device (reg : DeviceRegistry) (device_id : String) : Option DeviceEntry :=
  reg.devices.find? (fun e => decide ((DOMAIN, device_id) ∈ e.identifiers))

/-- Modelled from the spec: host registry remove-by-internal-id
(`dr.async_remove_device(dev_id)`). -/
def async_remove_device (reg : DeviceRegistry) (dev_id : Nat) : DeviceRegistry :=
  { reg with devices := reg.devices.filter (fun e => e.internal_id != dev_id) }

end dr

/-- The vendor SDK session manager, as the adapter sees it.  Modelled
from the spec: the `tuya_sharing.Manager` class is repository code absent
from `src` (spec section 6 fixes its surface: constructor taking client
id, user code, terminal id, endpoint, token blob and a token listener; a
`device_map`; an optional push channel `mq`; attachable device
listeners).  `uid` gives each constructed manager its Python object
identity. -/
structure Manager where
  uid : Nat
  client_id : String
  user_code : Val
  terminal_id : Val
  endpoint : Val
  token_info : Val
  device_map : DeviceMap
  mq : Option Nat
  listeners : List Nat
deriving DecidableEq, Repr

/-- Errors surfaced by the embedded operations. -/
inductive AdapterError where
  | configEntryAuthFailed
  | setupFailed
  | keyError (key : String)
deriving DecidableEq, Repr

namespace DeviceListener

/-- `DeviceListener.async_remove_device` (lines 175-184): look the device
up by `(DOMAIN, device_id)`; when an entry exists remove it by its
internal registry id, otherwise do nothing. -/
def async_remove_device (reg : DeviceRegistry) (device_id : String) : DeviceRegistry :=
  match dr.async_get_device reg device_id with
  | none => reg
  | some device_entry => dr.async_remove_device reg device_entry.internal_id

/-- `DeviceListener.update_device` (lines 155-162): the debug log indexes
`self.manager.device_map[device.id]`, which raises `KeyError` when the id
is absent; only afterwards is the per-device dispatcher signal sent.  The
result carries the list of signals emitted. -/
def update_device (m : Manager) (device : Device) :
    Except AdapterError (List String) :=
  match dmGet m.device_map device.id with
  | none => Except.error (AdapterError.keyError device.id)
  | some _ => Except.ok [TUYA_HA_SIGNAL_UPDATE_ENTITY ++ "_" ++ device.id]

end DeviceListener

/-- The host registry's own invariant that identifiers are unique across
devices, specialised to one identifier: at most one entry carries
`(DOMAIN, device_id)`. -/
def atMostOneMatch (reg : DeviceRegistry) (device_id : String) : Prop :=
  ∀ e1 ∈ reg.devices, ∀ e2 ∈ reg.devices,
    (DOMAIN, device_id) ∈ e1.identifiers →
      (DOMAIN, device_id) ∈ e2.identifiers → e1 = e2

instance (reg : DeviceRegistry) (device_id : String) :
    Decidable (atMostOneMatch reg device_id) := by
  unfold atMostOneMatch; infer_instance

theorem listener_remove_of_no_match (reg : DeviceRegistry) (device_id : String)
    (h : dr.async_get_device reg device_id = none) :
    DeviceListener.async_remove_device reg device_id = reg := by
  unfold DeviceListener.async_remove_device
  rw [h]

theorem get_device_after_remove (reg : DeviceRegistry) (device_id : String)
    (huniq : atMostOneMatch reg device_id) (e : DeviceEntry)
    (hfind : dr.async_get_device reg device_id = some e) :
    dr.async_get_device (dr.async_remove_device reg e.internal_id) device_id = none := by
  have hmem : e ∈ reg.devices := List.mem_of_find?_eq_some hfind
  have hid : (DOMAIN, device_id) ∈ e.identifiers := by
    have := List.find?_some hfind
    exact of_decide_eq_true this
  unfold dr.async_get_device dr.async_remove_device
  rw [List.find?_eq_none]
  intro e2 he2
  rcases List.mem_filter.mp he2 with ⟨he2mem, he2ne⟩
  intro he2id
  have : e = e2 := huniq e hmem e2 he2mem hid (of_decide_eq_true he2id)
  subst this
  simp at he2ne

/-- C7: listener-scheduled device removal is idempotent: with no entry
matching `(DOMAIN, device_id)` it is a no-op on the registry, and (under
the registry's identifier-uniqueness invariant) running it twice equals
running it once. -/
theorem async_remove_device_idempotent (reg : DeviceRegistry) (device_id : String) :
    (dr.async_get_device reg device_id = none →
      DeviceListener.async_remove_device reg device_id = reg) ∧
    (atMostOneMatch reg device_id →
      DeviceListener.async_remove_device
          (DeviceListener.async_remove_device reg device_id) device_id =
        DeviceListener.async_remove_device reg device_id) := by
  constructor
  · exact listener_remove_of_no_match reg device_id
  · intro huniq
    cases hfind : dr.async_get_device reg device_id with
    | none =>
      rw [listener_remove_of_no_match reg device_id hfind,
        listener_remove_of_no_match reg device_id hfind]
    | some e =>
      have h1 : DeviceListener.async_remove_device reg device_id =
          dr.async_remove_device reg e.internal_id := by
        unfold DeviceListener.async_remove_device
        rw [hfind]
      rw [h1]
      exact listener_remove_of_no_match _ device_id
        (get_device_after_remove reg device_id huniq e hfind)

/-- Witness for C7: concretely, removal is a no-op on a registry with no
matching entry, and removing twice equals removing once on a registry
holding a unique match. -/
theorem async_remove_device_idempotent_witness :
    (DeviceListener.async_remove_device ⟨[⟨0, [("other", "a")]⟩], 1⟩ "a" =
        ⟨[⟨0, [("other", "a")]⟩], 1⟩) ∧
      DeviceListener.async_remove_device
          (DeviceListener.async_remove_device
            ⟨[⟨0, [(DOMAIN, "a")]⟩, ⟨1, [(DOMAIN, "b")]⟩], 2⟩ "a") "a" =
        DeviceListener.async_remove_device
          ⟨[⟨0, [(DOMAIN, "a")]⟩, ⟨1, [(DOMAIN, "b")]⟩], 2⟩ "a" := by
  constructor
  · exact (async_remove_device_idempotent ⟨[⟨0, [("other", "a")]⟩], 1⟩ "a").1
      (by decide)
  · exact (async_remove_device_idempotent
        ⟨[⟨0, [(DOMAIN, "a")]⟩, ⟨1, [(DOMAIN, "b")]⟩], 2⟩ "a").2
      (by decide)

/-- `HomeAssistantTuyaData` (lines 38-42): manager plus attached device
listener (the listener carried by its identity tag). -/
structure HomeAssistantTuyaData where
  manager : Manager
  listener : Nat
deriving DecidableEq, Repr

/-- The per-domain session registry `hass.data[DOMAIN]`: entry id →
stored data, a Python dict embedded as an association list. -/
abbrev SessionMap := List (String × HomeAssistantTuyaData)

/-- The slice of Home Assistant state the adapter touches:
`hass.data[DOMAIN]` (absent when the key is missing), the device
registry, which entries have their platforms forwarded, and counters
assigning identities to freshly constructed managers and listeners. -/
structure HassState where
  domainData : Option SessionMap
  registry : DeviceRegistry
  platformsLoaded : List String
  nextManagerUid : Nat
  nextListenerUid : Nat
deriving DecidableEq, Repr

/-- Observable calls made into the vendor SDK and host during a
lifecycle operation, in order. -/
inductive Event where
  | reportVersion
  | reportFailureLogged
  | updateDeviceCache
  | forwardSetups
  | refreshMq
  | mqStop
  | removeDeviceListener (listener : Nat)
  | managerUnload
deriving DecidableEq, Repr

/-- Outcome of a lifecycle operation: the raised error if any, the state
at return (or at the raise), and the calls made. -/
structure StepResult where
  error : Option AdapterError
  state : HassState
  events : List Event
deriving DecidableEq, Repr

/-- `async_unload_entry` (lines 121-125): forwards the unload to the
host's platform machinery (its success reported by the host as
`unload_ok`) and returns that result; nothing else is touched. -/
def async_unload_entry (hass : HassState) (entry : ConfigEntry)
    (unload_ok : Bool) : Bool × HassState :=
  (unload_ok,
    { hass with platformsLoaded :=
        if unload_ok then hass.platformsLoaded.filter (fun i => i != entry.entry_id)
        else hass.platformsLoaded })

/-- `async_remove_entry` (lines 128-140): index `hass.data[DOMAIN]` and
then the entry id (each raising `KeyError` when absent), stop the push
channel when one is live, detach the device listener, release the
session, pop the stored session and, when the session map became empty,
pop the whole domain key. -/
def async_remove_entry (hass : HassState) (entry : ConfigEntry) : StepResult :=
  match hass.domainData with
  | none => ⟨some (AdapterError.keyError DOMAIN), hass, []⟩
  | some dd =>
    match alistGet dd entry.entry_id with
    | none => ⟨some (AdapterError.keyError entry.entry_id), hass, []⟩
    | some tuya =>
      let stopEvents : List Event :=
        match tuya.manager.mq with
        | none => []
        | some _ => [Event.mqStop]
      let events := stopEvents ++
        [Event.removeDeviceListener tuya.listener, Event.managerUnload]
      let dd' := alistPop dd entry.entry_id
      if dd'.isEmpty then
        ⟨none, { hass with domainData := none }, events⟩
      else
        ⟨none, { hass with domainData := some dd' }, events⟩

theorem alistGet_alistPop {α : Type} (l : List (String × α)) (k : String) :
    alistGet (alistPop l k) k = none := by
  induction l with
  | nil => rfl
  | cons p rest ih =>
    unfold alistPop at ih ⊢
    rw [List.filter_cons]
    split
    case isTrue h =>
      have hne : p.1 ≠ k := by
        intro hk
        simp [hk] at h
      rw [alistGet, if_neg (fun hk => hne hk.symm)]
      exact ih
    case isFalse h => exact ih

/-- C9: `DeviceListener.update_device` indexes the session's device map
by the updated device's id without a guard: when the id is absent it
raises a lookup error and emits nothing, and it completes with the
per-device signal exactly when the id is present. -/
theorem update_device_requires_id (m : Manager) (device : Device) :
    (dmGet m.device_map device.id = none →
      DeviceListener.update_device m device =
        Except.error (AdapterError.keyError device.id)) ∧
    ((dmGet m.device_map device.id).isSome →
      DeviceListener.update_device m device =
        Except.ok [TUYA_HA_SIGNAL_UPDATE_ENTITY ++ "_" ++ device.id]) := by
  constructor
  · intro h
    unfold DeviceListener.update_device
    rw [h]
  · intro h
    unfold DeviceListener.update_device
    cases hfind : dmGet m.device_map device.id with
    | none => rw [hfind] at h; simp at h
    | some d => rfl

/-- Witness for C9: a device id absent from the map raises `KeyError`
with no signal; a present id completes with the per-device signal. -/
theorem update_device_requires_id_witness :
    DeviceListener.update_device
        ⟨0, "c", Val.str "u", Val.str "t", Val.str "e", Val.blob 0, [], none, []⟩
        ⟨"a", "lamp", "p", 0⟩ =
      Except.error (AdapterError.keyError "a") ∧
    DeviceListener.update_device
        ⟨0, "c", Val.str "u", Val.str "t", Val.str "e", Val.blob 0,
          [⟨"a", "lamp", "p", 0⟩], none, []⟩
        ⟨"a", "lamp", "p", 0⟩ =
      Except.ok [TUYA_HA_SIGNAL_UPDATE_ENTITY ++ "_" ++ "a"] := by
  constructor
  · exact (update_device_requires_id
      ⟨0, "c", Val.str "u", Val.str "t", Val.str "e", Val.blob 0, [], none, []⟩
      ⟨"a", "lamp", "p", 0⟩).1 (by decide)
  · exact (update_device_requires_id
      ⟨0, "c", Val.str "u", Val.str "t", Val.str "e", Val.blob 0,
        [⟨"a", "lamp", "p", 0⟩], none, []⟩
      ⟨"a", "lamp", "p", 0⟩).2 (by decide)

/-- C8: `async_unload_entry` only unloads the entry's platforms and
returns the host's unload result; the session registry (and the rest of
the state: device registry, identity counters) is untouched, so the
session persists across an unload/setup reload cycle. -/
theorem async_unload_entry_frame (hass : HassState) (entry : ConfigEntry)
    (unload_ok : Bool) :
    (async_unload_entry hass entry unload_ok).1 = unload_ok ∧
    (async_unload_entry hass entry unload_ok).2.domainData = hass.domainData ∧
    (async_unload_entry hass entry unload_ok).2.registry = hass.registry ∧
    (async_unload_entry hass entry unload_ok).2.nextManagerUid = hass.nextManagerUid ∧
    (async_unload_entry hass entry unload_ok).2.nextListenerUid = hass.nextListenerUid :=
  ⟨rfl, rfl, rfl, rfl, rfl⟩

/-- C6: `async_remove_entry` on an entry whose session holds an active
push channel succeeds, emitting channel-stop strictly before the
listener detach and the session release; the stored session is removed,
and whenever no sessions remain the whole domain namespace is cleared. -/
theorem remove_entry_teardown (hass : HassState) (entry : ConfigEntry)
    (dd : SessionMap) (tuya : HomeAssistantTuyaData) (q : Nat)
    (hdd : hass.domainData = some dd)
    (hget : alistGet dd entry.entry_id = some tuya)
    (hmq : tuya.manager.mq = some q) :
    (async_remove_entry hass entry).error = none ∧
    (async_remove_entry hass entry).events =
      [Event.mqStop, Event.removeDeviceListener tuya.listener,
        Event.managerUnload] ∧
    alistGet ((async_remove_entry hass entry).state.domainData.getD [])
        entry.entry_id = none ∧
    ((alistPop dd entry.entry_id).isEmpty = true →
      (async_remove_entry hass entry).state.domainData = none) := by
  unfold async_remove_entry
  simp only [hdd, hget, hmq]
  split
  case isTrue hempty =>
    refine ⟨rfl, rfl, ?_, fun _ => rfl⟩
    rfl
  case isFalse hempty =>
    refine ⟨rfl, rfl, ?_, fun h => absurd h hempty⟩
    simp only [Option.getD]
    exact alistGet_alistPop dd entry.entry_id

/-- Witness for C6 on a concrete state with one stored session and a
live push channel: the event order, the removal of the session, and the
clearing of the now-empty namespace are all observed. -/
theorem remove_entry_teardown_witness :
    (async_remove_entry
        ⟨some [("e1",
            ⟨⟨0, "c", Val.str "u", Val.str "t", Val.str "e", Val.blob 0,
              [], some 5, [1]⟩, 1⟩)],
          ⟨[], 0⟩, [], 1, 2⟩
        ⟨"e1", []⟩).error = none ∧
    (async_remove_entry
        ⟨some [("e1",
            ⟨⟨0, "c", Val.str "u", Val.str "t", Val.str "e", Val.blob 0,
              [], some 5, [1]⟩, 1⟩)],
          ⟨[], 0⟩, [], 1, 2⟩
        ⟨"e1", []⟩).events =
      [Event.mqStop, Event.removeDeviceListener 1, Event.managerUnload] ∧
    alistGet
        ((async_remove_entry
          ⟨some [("e1",
              ⟨⟨0, "c", Val.str "u", Val.str "t", Val.str "e", Val.blob 0,
                [], some 5, [1]⟩, 1⟩)],
            ⟨[], 0⟩, [], 1, 2⟩
          ⟨"e1", []⟩).state.domainData.getD []) "e1" = none ∧
    (async_remove_entry
        ⟨some [("e1",
            ⟨⟨0, "c", Val.str "u", Val.str "t", Val.str "e", Val.blob 0,
              [], some 5, [1]⟩, 1⟩)],
          ⟨[], 0⟩, [], 1, 2⟩
        ⟨"e1", []⟩).state.domainData = none := by
  have h := remove_entry_teardown
    ⟨some [("e1",
        ⟨⟨0, "c", Val.str "u", Val.str "t", Val.str "e", Val.blob 0,
          [], some 5, [1]⟩, 1⟩)],
      ⟨[], 0⟩, [], 1, 2⟩
    ⟨"e1", []⟩
    [("e1",
      ⟨⟨0, "c", Val.str "u", Val.str "t", Val.str "e", Val.blob 0,
        [], some 5, [1]⟩, 1⟩)]
    ⟨⟨0, "c", Val.str "u", Val.str "t", Val.str "e", Val.blob 0,
      [], some 5, [1]⟩, 1⟩
    5 rfl (by decide) rfl
  exact ⟨h.1, h.2.1, h.2.2.1, h.2.2.2 (by decide)⟩

/-- C10: `async_remove_entry` requires a stored session: when the domain
namespace is absent or holds nothing under the entry id, it raises a
lookup error, performs no teardown call, and leaves the state as it
was. -/
theorem remove_entry_requires_session (hass : HassState) (entry : ConfigEntry)
    (h : alistGet (hass.domainData.getD []) entry.entry_id = none) :
    (async_remove_entry hass entry).error.isSome = true ∧
    (async_remove_entry hass entry).state = hass ∧
    (async_remove_entry hass entry).events = [] := by
  unfold async_remove_entry
  cases hdd : hass.domainData with
  | none => exact ⟨rfl, rfl, rfl⟩
  | some dd =>
    rw [hdd] at h
    simp only [Option.getD] at h
    simp [h]

/-- Witness for C10 on the two concrete shapes: the domain namespace
missing entirely, and present but with no session under the entry id. -/
theorem remove_entry_requires_session_witness :
    (async_remove_entry ⟨none, ⟨[], 0⟩, [], 0, 0⟩ ⟨"e1", []⟩).state =
        (⟨none, ⟨[], 0⟩, [], 0, 0⟩ : HassState) ∧
    (async_remove_entry ⟨some [], ⟨[], 0⟩, [], 0, 0⟩ ⟨"e1", []⟩).error.isSome =
        true ∧
    (async_remove_entry ⟨some [], ⟨[], 0⟩, [], 0, 0⟩ ⟨"e1", []⟩).events = [] := by
  refine ⟨(remove_entry_requires_session ⟨none, ⟨[], 0⟩, [], 0, 0⟩ ⟨"e1", []⟩
    (by decide)).2.1, ?_, ?_⟩
  · exact (remove_entry_requires_session ⟨some [], ⟨[], 0⟩, [], 0, 0⟩ ⟨"e1", []⟩
      (by decide)).1
  · exact (remove_entry_requires_session ⟨some [], ⟨[], 0⟩, [], 0, 0⟩ ⟨"e1", []⟩
      (by decide)).2.2

/-- Client id constant `TUYA_CLIENT_ID` from `const.py`. -/
def TUYA_CLIENT_ID : String := "HA_3y9q4ak7g4ephrvke"

/-- The environment of one `async_setup_entry` run: whether the
version-reporting backend call raises, whether the blocking device-cache
refresh raises, the device map the refresh produces, whether the host's
platform forwarding succeeds, and the push-channel handle `refresh_mq`
yields. -/
structure SetupOracle where
  reportRaises : Bool
  cacheRaises : Bool
  newDeviceMap : DeviceMap
  forwardOk : Bool
  mqHandle : Nat
deriving DecidableEq, Repr

/-- The condition of lines 115-116: some identifier of the entry names
this domain with a device id absent from the device map. -/
def staleEntry (dm : DeviceMap) (e : DeviceEntry) : Bool :=
  e.identifiers.any (fun it => it.1 == DOMAIN && !(dmHas dm it.2))

/-- `cleanup_device_registry` (lines 109-118): remove every registry
entry one of whose identifiers carries this domain and a device id not
in the manager's device map. -/
def cleanup_device_registry (reg : DeviceRegistry) (dm : DeviceMap) : DeviceRegistry :=
  { reg with devices := reg.devices.filter (fun e => !(staleEntry dm e)) }

namespace dr

/-- Modelled from the spec: host registry get-or-create
(`device_registry.async_get_or_create(identifiers=...)`) reuses an entry
sharing an identifier with the given set, else creates a fresh entry
carrying exactly that set. -/
def async_get_or_create (reg : DeviceRegistry)
    (idents : List (String × String)) : DeviceRegistry :=
  if reg.devices.any (fun e => idents.any (fun i => decide (i ∈ e.identifiers))) then
    reg
  else
    ⟨reg.devices ++ [⟨reg.next_id, idents⟩], reg.next_id + 1⟩

end dr

/-- The loop of lines 80-88: a get-or-create per device in the device
map, each with the singleton identifier set `{(DOMAIN, device.id)}`. -/
def registerDevices (reg : DeviceRegistry) (dm : DeviceMap) : DeviceRegistry :=
  dm.foldl (fun r device => dr.async_get_or_create r [(DOMAIN, device.id)]) reg

/-- Modelled from the spec: `Manager.report_version` is SDK code absent
from `src`; per the spec it is best-effort and non-fatal, so a backend
failure is logged and swallowed inside the call.  These are the calls
observed. -/
def reportEvents (reportRaises : Bool) : List Event :=
  if reportRaises then [Event.reportVersion, Event.reportFailureLogged]
  else [Event.reportVersion]

/-- Lines 73-94 of `async_setup_entry`, once a session `tuya` for
`entry_id` is stored in `dd` (with `s.domainData = some dd`): report the
version (best-effort), refresh the device cache (a raise propagates as a
setup failure), prune the registry, register the known devices, forward
the entity platforms (a failure propagates), and open the push
channel.  Mutations of the shared manager object are written back into
the session map explicitly. -/
def setupSession (s : HassState) (dd : SessionMap) (entry_id : String)
    (tuya : HomeAssistantTuyaData) (o : SetupOracle) : StepResult :=
  let ev0 := reportEvents o.reportRaises
  if o.cacheRaises then
    ⟨some AdapterError.setupFailed, s, ev0 ++ [Event.updateDeviceCache]⟩
  else
    let manager1 := { tuya.manager with device_map := o.newDeviceMap }
    let tuya1 : HomeAssistantTuyaData := ⟨manager1, tuya.listener⟩
    let dd1 := alistSet dd entry_id tuya1
    let s1 := { s with domainData := some dd1 }
    let s2 := { s1 with registry := cleanup_device_registry s1.registry o.newDeviceMap }
    let s3 := { s2 with registry := registerDevices s2.registry o.newDeviceMap }
    if o.forwardOk then
      let manager2 := { manager1 with mq := some o.mqHandle }
      let s4 := { s3 with
        platformsLoaded := entry_id :: s3.platformsLoaded,
        domainData := some (alistSet dd1 entry_id ⟨manager2, tuya.listener⟩) }
      ⟨none, s4,
        ev0 ++ [Event.updateDeviceCache, Event.forwardSetups, Event.refreshMq]⟩
    else
      ⟨some AdapterError.setupFailed, s3,
        ev0 ++ [Event.updateDeviceCache, Event.forwardSetups]⟩

/-- `async_setup_entry` (lines 45-94): ensure `hass.data[DOMAIN]`
exists, fail authentication when the legacy app-type key is present,
construct and store a session when none is stored for the entry id
(indexing the entry data for each credential, in the constructor's
argument order), else reuse the stored one, then run the remaining setup
steps. -/
def async_setup_entry (hass : HassState) (entry : ConfigEntry)
    (o : SetupOracle) : StepResult :=
  let dd := hass.domainData.getD []
  let s0 := { hass with domainData := some dd }
  match dictGet entry.data CONF_APP_TYPE with
  | some _ => ⟨some AdapterError.configEntryAuthFailed, s0, []⟩
  | none =>
    match alistGet dd entry.entry_id with
    | some tuya => setupSession s0 dd entry.entry_id tuya o
    | none =>
      match dictGet entry.data CONF_USER_CODE with
      | none => ⟨some (AdapterError.keyError CONF_USER_CODE), s0, []⟩
      | some uc =>
        match dictGet entry.data CONF_TERMINAL_ID with
        | none => ⟨some (AdapterError.keyError CONF_TERMINAL_ID), s0, []⟩
        | some tid =>
          match dictGet entry.data CONF_ENDPOINT with
          | none => ⟨some (AdapterError.keyError CONF_ENDPOINT), s0, []⟩
          | some ep =>
            match dictGet entry.data CONF_TOKEN_INFO with
            | none => ⟨some (AdapterError.keyError CONF_TOKEN_INFO), s0, []⟩
            | some ti =>
              let manager : Manager :=
                ⟨s0.nextManagerUid, TUYA_CLIENT_ID, uc, tid, ep, ti,
                  [], none, [s0.nextListenerUid]⟩
              let tuya : HomeAssistantTuyaData := ⟨manager, s0.nextListenerUid⟩
              let dd1 := alistSet dd entry.entry_id tuya
              let s1 := { s0 with
                domainData := some dd1,
                nextManagerUid := s0.nextManagerUid + 1,
                nextListenerUid := s0.nextListenerUid + 1 }
              setupSession s1 dd1 entry.entry_id tuya o

/-- C2: with the legacy app-type marker in the entry data,
`async_setup_entry` raises `ConfigEntryAuthFailed` before any session
work: no manager or listener is constructed (the identity counters are
untouched), nothing changes under the entry id in the session map, and
no vendor or host call is made. -/
theorem setup_legacy_auth_fails (hass : HassState) (entry : ConfigEntry)
    (o : SetupOracle) (v : Val)
    (h : dictGet entry.data CONF_APP_TYPE = some v) :
    (async_setup_entry hass entry o).error =
      some AdapterError.configEntryAuthFailed ∧
    (async_setup_entry hass entry o).state.nextManagerUid = hass.nextManagerUid ∧
    (async_setup_entry hass entry o).state.nextListenerUid = hass.nextListenerUid ∧
    alistGet ((async_setup_entry hass entry o).state.domainData.getD [])
        entry.entry_id =
      alistGet (hass.domainData.getD []) entry.entry_id ∧
    (async_setup_entry hass entry o).events = [] := by
  unfold async_setup_entry
  rw [h]
  exact ⟨rfl, rfl, rfl, rfl, rfl⟩

/-- Witness for C2: a concrete entry carrying the legacy marker fails
authentication, stores nothing and constructs nothing. -/
theorem setup_legacy_auth_fails_witness :
    (async_setup_entry ⟨none, ⟨[], 0⟩, [], 0, 0⟩
        ⟨"e1", [(CONF_APP_TYPE, Val.str "smartlife")]⟩
        ⟨false, false, [], true, 0⟩).error =
      some AdapterError.configEntryAuthFailed ∧
    alistGet
        ((async_setup_entry ⟨none, ⟨[], 0⟩, [], 0, 0⟩
          ⟨"e1", [(CONF_APP_TYPE, Val.str "smartlife")]⟩
          ⟨false, false, [], true, 0⟩).state.domainData.getD []) "e1" = none ∧
    (async_setup_entry ⟨none, ⟨[], 0⟩, [], 0, 0⟩
        ⟨"e1", [(CONF_APP_TYPE, Val.str "smartlife")]⟩
        ⟨false, false, [], true, 0⟩).state.nextManagerUid = 0 := by
  have h := setup_legacy_auth_fails ⟨none, ⟨[], 0⟩, [], 0, 0⟩
    ⟨"e1", [(CONF_APP_TYPE, Val.str "smartlife")]⟩
    ⟨false, false, [], true, 0⟩ (Val.str "smartlife") (by decide)
  exact ⟨h.1, by rw [h.2.2.2.1]; decide, h.2.1⟩

theorem setupSession_report_frame (s : HassState) (dd : SessionMap)
    (k : String) (tuya : HomeAssistantTuyaData) (o : SetupOracle)
    (b1 b2 : Bool) :
    (setupSession s dd k tuya { o with reportRaises := b1 }).error =
      (setupSession s dd k tuya { o with reportRaises := b2 }).error ∧
    (setupSession s dd k tuya { o with reportRaises := b1 }).state =
      (setupSession s dd k tuya { o with reportRaises := b2 }).state := by
  unfold setupSession
  cases hc : o.cacheRaises <;> cases hf : o.forwardOk <;> simp [hc, hf]

theorem setupSession_report_logged (s : HassState) (dd : SessionMap)
    (k : String) (tuya : HomeAssistantTuyaData) (o : SetupOracle)
    (h : o.reportRaises = true) :
    Event.reportFailureLogged ∈ (setupSession s dd k tuya o).events := by
  unfold setupSession
  rw [h]
  cases hc : o.cacheRaises <;> cases hf : o.forwardOk <;>
    simp [hc, hf, reportEvents]

/-- C4: a failure of the version-reporting call is swallowed: the run
with the backend call raising has the same outcome and the same final
state as the run where it succeeds (so every remaining setup step is
performed just the same), and when setup succeeds the raising run shows
the failure only in its log. -/
theorem setup_report_failure_swallowed (hass : HassState)
    (entry : ConfigEntry) (o : SetupOracle) :
    (async_setup_entry hass entry { o with reportRaises := true }).error =
      (async_setup_entry hass entry { o with reportRaises := false }).error ∧
    (async_setup_entry hass entry { o with reportRaises := true }).state =
      (async_setup_entry hass entry { o with reportRaises := false }).state ∧
    ((async_setup_entry hass entry { o with reportRaises := true }).error = none →
      Event.reportFailureLogged ∈
        (async_setup_entry hass entry { o with reportRaises := true }).events) := by
  simp only [async_setup_entry]
  cases hA : dictGet entry.data CONF_APP_TYPE with
  | some v => exact ⟨rfl, rfl, fun h => nomatch h⟩
  | none =>
    cases hS : alistGet (hass.domainData.getD []) entry.entry_id with
    | some tuya =>
      refine ⟨(setupSession_report_frame _ _ _ _ o true false).1,
        (setupSession_report_frame _ _ _ _ o true false).2,
        fun _ => setupSession_report_logged _ _ _ _ _ rfl⟩
    | none =>
      cases hU : dictGet entry.data CONF_USER_CODE with
      | none => exact ⟨rfl, rfl, fun h => nomatch h⟩
      | some uc =>
        cases hT : dictGet entry.data CONF_TERMINAL_ID with
        | none => exact ⟨rfl, rfl, fun h => nomatch h⟩
        | some tid =>
          cases hE : dictGet entry.data CONF_ENDPOINT with
          | none => exact ⟨rfl, rfl, fun h => nomatch h⟩
          | some ep =>
            cases hI : dictGet entry.data CONF_TOKEN_INFO with
            | none => exact ⟨rfl, rfl, fun h => nomatch h⟩
            | some ti =>
              refine ⟨(setupSession_report_frame _ _ _ _ o true false).1,
                (setupSession_report_frame _ _ _ _ o true false).2,
                fun _ => setupSession_report_logged _ _ _ _ _ rfl⟩

/-- Witness for C4 on a concrete fresh entry: the raising run succeeds,
matches the non-raising run's state, and shows the logged failure. -/
theorem setup_report_failure_swallowed_witness :
    (async_setup_entry ⟨none, ⟨[], 0⟩, [], 0, 0⟩
        ⟨"e1", [(CONF_USER_CODE, Val.str "u"), (CONF_TERMINAL_ID, Val.str "t"),
          (CONF_ENDPOINT, Val.str "ep"), (CONF_TOKEN_INFO, Val.blob 0)]⟩
        ⟨true, false, [⟨"a", "lamp", "p", 0⟩], true, 5⟩).error =
      (async_setup_entry ⟨none, ⟨[], 0⟩, [], 0, 0⟩
        ⟨"e1", [(CONF_USER_CODE, Val.str "u"), (CONF_TERMINAL_ID, Val.str "t"),
          (CONF_ENDPOINT, Val.str "ep"), (CONF_TOKEN_INFO, Val.blob 0)]⟩
        ⟨false, false, [⟨"a", "lamp", "p", 0⟩], true, 5⟩).error ∧
    Event.reportFailureLogged ∈
      (async_setup_entry ⟨none, ⟨[], 0⟩, [], 0, 0⟩
        ⟨"e1", [(CONF_USER_CODE, Val.str "u"), (CONF_TERMINAL_ID, Val.str "t"),
          (CONF_ENDPOINT, Val.str "ep"), (CONF_TOKEN_INFO, Val.blob 0)]⟩
        ⟨true, false, [⟨"a", "lamp", "p", 0⟩], true, 5⟩).events := by
  have h := setup_report_failure_swallowed ⟨none, ⟨[], 0⟩, [], 0, 0⟩
    ⟨"e1", [(CONF_USER_CODE, Val.str "u"), (CONF_TERMINAL_ID, Val.str "t"),
      (CONF_ENDPOINT, Val.str "ep"), (CONF_TOKEN_INFO, Val.blob 0)]⟩
    ⟨false, false, [⟨"a", "lamp", "p", 0⟩], true, 5⟩
  exact ⟨h.1, h.2.2 (by decide)⟩

theorem dmHas_of_mem (dm : DeviceMap) (x : Device) (hx : x ∈ dm) :
    dmHas dm x.id = true := by
  unfold dmHas
  exact List.any_eq_true.mpr ⟨x, hx, by simp⟩

theorem exists_of_dmHas (dm : DeviceMap) (d : String) (h : dmHas dm d = true) :
    ∃ x ∈ dm, x.id = d := by
  unfold dmHas at h
  rcases List.any_eq_true.mp h with ⟨x, hx, hid⟩
  exact ⟨x, hx, by simpa using hid⟩

theorem cleanup_sound (reg : DeviceRegistry) (dm : DeviceMap) (d : String)
    (h : regHasIdent (cleanup_device_registry reg dm) (DOMAIN, d)) :
    dmHas dm d = true := by
  rcases h with ⟨e, he, hid⟩
  unfold cleanup_device_registry at he
  rcases List.mem_filter.mp he with ⟨hmem, hkeep⟩
  by_contra hno
  have hfalse : dmHas dm d = false := by
    cases hh : dmHas dm d
    · rfl
    · exact absurd hh hno
  have hstale : staleEntry dm e = true := by
    unfold staleEntry
    refine List.any_eq_true.mpr ⟨(DOMAIN, d), hid, ?_⟩
    simp [hfalse]
  simp [hstale] at hkeep

theorem getOrCreate_mono (reg : DeviceRegistry)
    (idents : List (String × String)) (i : String × String)
    (h : regHasIdent reg i) :
    regHasIdent (dr.async_get_or_create reg idents) i := by
  unfold dr.async_get_or_create
  split
  · exact h
  · rcases h with ⟨e, he, hid⟩
    exact ⟨e, List.mem_append_left _ he, hid⟩

theorem getOrCreate_self (reg : DeviceRegistry) (d : String) :
    regHasIdent (dr.async_get_or_create reg [(DOMAIN, d)]) (DOMAIN, d) := by
  unfold dr.async_get_or_create
  split
  case isTrue h =>
    rcases List.any_eq_true.mp h with ⟨e, he, hmatch⟩
    rcases List.any_eq_true.mp hmatch with ⟨i, hi, hdec⟩
    have hieq : i = (DOMAIN, d) := by simpa using hi
    exact ⟨e, he, hieq ▸ of_decide_eq_true hdec⟩
  case isFalse h =>
    refine ⟨⟨reg.next_id, [(DOMAIN, d)]⟩, List.mem_append_right _ ?_, ?_⟩
    · exact List.mem_singleton_self _
    · exact List.mem_singleton_self _

theorem getOrCreate_sound (reg : DeviceRegistry) (dm : DeviceMap) (d : String)
    (hsound : ∀ d', regHasIdent reg (DOMAIN, d') → dmHas dm d' = true)
    (hd : dmHas dm d = true) (d' : String)
    (h : regHasIdent (dr.async_get_or_create reg [(DOMAIN, d)]) (DOMAIN, d')) :
    dmHas dm d' = true := by
  unfold dr.async_get_or_create at h
  unfold regHasIdent at h
  split at h
  · exact hsound d' h
  · rcases h with ⟨e, he, hid⟩
    rcases List.mem_append.mp he with hin | hnew
    · exact hsound d' ⟨e, hin, hid⟩
    · have heq : e = ⟨reg.next_id, [(DOMAIN, d)]⟩ := by simpa using hnew
      subst heq
      have hdd : d' = d := by simpa using hid
      rw [hdd]
      exact hd

theorem registerDevices_mono (l : List Device) (reg : DeviceRegistry)
    (i : String × String) (h : regHasIdent reg i) :
    regHasIdent (registerDevices reg l) i := by
  induction l generalizing reg with
  | nil => exact h
  | cons x rest ih => exact ih _ (getOrCreate_mono reg _ i h)

theorem registerDevices_complete (l : List Device) (reg : DeviceRegistry) :
    ∀ x ∈ l, regHasIdent (registerDevices reg l) (DOMAIN, x.id) := by
  induction l generalizing reg with
  | nil => intro x hx; cases hx
  | cons y rest ih =>
    intro x hx
    rcases List.mem_cons.mp hx with hxy | hxr
    · subst hxy
      exact registerDevices_mono rest _ _ (getOrCreate_self reg x.id)
    · exact ih _ x hxr

theorem registerDevices_sound (dm : DeviceMap) (l : List Device)
    (reg : DeviceRegistry) (hl : ∀ x ∈ l, dmHas dm x.id = true)
    (hsound : ∀ d', regHasIdent reg (DOMAIN, d') → dmHas dm d' = true) :
    ∀ d', regHasIdent (registerDevices reg l) (DOMAIN, d') → dmHas dm d' = true := by
  induction l generalizing reg with
  | nil => exact hsound
  | cons y rest ih =>
    intro d' h
    refine ih _ (fun x hx => hl x (List.mem_cons_of_mem y hx))
      (fun d'' hd'' => getOrCreate_sound reg dm y.id hsound
        (hl y (List.mem_cons_self y rest)) d'' hd'') d' h

theorem register_cleanup_iff (reg : DeviceRegistry) (dm : DeviceMap)
    (d : String) :
    regHasIdent (registerDevices (cleanup_device_registry reg dm) dm)
        (DOMAIN, d) ↔ dmHas dm d = true := by
  constructor
  · exact registerDevices_sound dm dm _ (fun x hx => dmHas_of_mem dm x hx)
      (fun d' h => cleanup_sound reg dm d' h) d
  · intro h
    rcases exists_of_dmHas dm d h with ⟨x, hx, hxd⟩
    have hc := registerDevices_complete dm (cleanup_device_registry reg dm) x hx
    rwa [hxd] at hc

theorem setupSession_success_registry (s : HassState) (dd : SessionMap)
    (k : String) (tuya : HomeAssistantTuyaData) (o : SetupOracle)
    (h : (setupSession s dd k tuya o).error = none) :
    (setupSession s dd k tuya o).state.registry =
      registerDevices (cleanup_device_registry s.registry o.newDeviceMap)
        o.newDeviceMap := by
  unfold setupSession at h ⊢
  cases hc : o.cacheRaises <;> cases hf : o.forwardOk <;>
      simp only [hc, hf] at h ⊢ <;> first
    | rfl
    | simp at h

/-- C1: after a successful `async_setup_entry`, the registry carries a
`(DOMAIN, d)` identifier exactly for the device ids `d` of the refreshed
device map: entries with a domain identifier outside the map were
pruned, and an entry exists (created or reused) for every id in it. -/
theorem setup_registry_sync (hass : HassState) (entry : ConfigEntry)
    (o : SetupOracle)
    (h : (async_setup_entry hass entry o).error = none) (d : String) :
    regHasIdent (async_setup_entry hass entry o).state.registry (DOMAIN, d) ↔
      dmHas o.newDeviceMap d = true := by
  simp only [async_setup_entry] at h ⊢
  revert h
  cases hA : dictGet entry.data CONF_APP_TYPE with
  | some v => intro h; simp at h
  | none =>
    cases hS : alistGet (hass.domainData.getD []) entry.entry_id with
    | some tuya =>
      intro h
      rw [setupSession_success_registry _ _ _ _ _ h]
      exact register_cleanup_iff hass.registry o.newDeviceMap d
    | none =>
      cases hU : dictGet entry.data CONF_USER_CODE with
      | none => intro h; simp at h
      | some uc =>
        cases hT : dictGet entry.data CONF_TERMINAL_ID with
        | none => intro h; simp at h
        | some tid =>
          cases hE : dictGet entry.data CONF_ENDPOINT with
          | none => intro h; simp at h
          | some ep =>
            cases hI : dictGet entry.data CONF_TOKEN_INFO with
            | none => intro h; simp at h
            | some ti =>
              intro h
              rw [setupSession_success_registry _ _ _ _ _ h]
              exact register_cleanup_iff hass.registry o.newDeviceMap d

/-- Witness for C1 on a concrete run: the registry held ids `a` and `c`,
the refreshed map holds `a` and `b`; after setup the registry has `b`
and no longer has `c`. -/
theorem setup_registry_sync_witness :
    ((regHasIdent
        (async_setup_entry
          ⟨none, ⟨[⟨0, [(DOMAIN, "a")]⟩, ⟨1, [(DOMAIN, "c")]⟩], 2⟩, [], 0, 0⟩
          ⟨"e1", [(CONF_USER_CODE, Val.str "u"), (CONF_TERMINAL_ID, Val.str "t"),
            (CONF_ENDPOINT, Val.str "ep"), (CONF_TOKEN_INFO, Val.blob 0)]⟩
          ⟨false, false, [⟨"a", "l1", "p", 0⟩, ⟨"b", "l2", "p", 0⟩], true, 5⟩
          ).state.registry (DOMAIN, "b")) ↔
      dmHas [⟨"a", "l1", "p", 0⟩, ⟨"b", "l2", "p", 0⟩] "b" = true) ∧
    ((regHasIdent
        (async_setup_entry
          ⟨none, ⟨[⟨0, [(DOMAIN, "a")]⟩, ⟨1, [(DOMAIN, "c")]⟩], 2⟩, [], 0, 0⟩
          ⟨"e1", [(CONF_USER_CODE, Val.str "u"), (CONF_TERMINAL_ID, Val.str "t"),
            (CONF_ENDPOINT, Val.str "ep"), (CONF_TOKEN_INFO, Val.blob 0)]⟩
          ⟨false, false, [⟨"a", "l1", "p", 0⟩, ⟨"b", "l2", "p", 0⟩], true, 5⟩
          ).state.registry (DOMAIN, "c")) ↔
      dmHas [⟨"a", "l1", "p", 0⟩, ⟨"b", "l2", "p", 0⟩] "c" = true) := by
  constructor
  · exact setup_registry_sync
      ⟨none, ⟨[⟨0, [(DOMAIN, "a")]⟩, ⟨1, [(DOMAIN, "c")]⟩], 2⟩, [], 0, 0⟩
      ⟨"e1", [(CONF_USER_CODE, Val.str "u"), (CONF_TERMINAL_ID, Val.str "t"),
        (CONF_ENDPOINT, Val.str "ep"), (CONF_TOKEN_INFO, Val.blob 0)]⟩
      ⟨false, false, [⟨"a", "l1", "p", 0⟩, ⟨"b", "l2", "p", 0⟩], true, 5⟩
      (by decide) "b"
  · exact setup_registry_sync
      ⟨none, ⟨[⟨0, [(DOMAIN, "a")]⟩, ⟨1, [(DOMAIN, "c")]⟩], 2⟩, [], 0, 0⟩
      ⟨"e1", [(CONF_USER_CODE, Val.str "u"), (CONF_TERMINAL_ID, Val.str "t"),
        (CONF_ENDPOINT, Val.str "ep"), (CONF_TOKEN_INFO, Val.blob 0)]⟩
      ⟨false, false, [⟨"a", "l1", "p", 0⟩, ⟨"b", "l2", "p", 0⟩], true, 5⟩
      (by decide) "c"

theorem setupSession_counters (s : HassState) (dd : SessionMap) (k : String)
    (tuya : HomeAssistantTuyaData) (o : SetupOracle) :
    (setupSession s dd k tuya o).state.nextManagerUid = s.nextManagerUid ∧
    (setupSession s dd k tuya o).state.nextListenerUid = s.nextListenerUid := by
  unfold setupSession
  cases hc : o.cacheRaises <;> cases hf : o.forwardOk <;> simp [hc, hf]

theorem setupSession_stored (s : HassState) (k : String)
    (tuya : HomeAssistantTuyaData) (o : SetupOracle)
    (hget : alistGet (s.domainData.getD []) k = some tuya) :
    ∃ td2 : HomeAssistantTuyaData,
      alistGet ((setupSession s (s.domainData.getD []) k tuya
            o).state.domainData.getD []) k = some td2 ∧
        td2.manager.uid = tuya.manager.uid ∧ td2.listener = tuya.listener := by
  unfold setupSession
  cases hc : o.cacheRaises
  case true =>
    simp only [hc, if_true]
    exact ⟨tuya, hget, rfl, rfl⟩
  case false =>
    cases hf : o.forwardOk
    case true =>
      simp only [hc, hf, Bool.false_eq_true, if_false, if_true]
      exact ⟨_, alistGet_alistSet_self _ _ _, rfl, rfl⟩
    case false =>
      simp only [hc, hf, Bool.false_eq_true, if_false]
      exact ⟨_, alistGet_alistSet_self _ _ _, rfl, rfl⟩

theorem setup_auth_none (hass : HassState) (entry : ConfigEntry)
    (o : SetupOracle) (h : (async_setup_entry hass entry o).error = none) :
    dictGet entry.data CONF_APP_TYPE = none := by
  cases hA : dictGet entry.data CONF_APP_TYPE with
  | none => rfl
  | some v =>
    exfalso
    have herr : (async_setup_entry hass entry o).error =
        some AdapterError.configEntryAuthFailed := by
      simp only [async_setup_entry]
      rw [hA]
    rw [h] at herr
    exact nomatch herr

theorem setup_stores (hass : HassState) (entry : ConfigEntry) (o : SetupOracle)
    (h : (async_setup_entry hass entry o).error = none) :
    ∃ td : HomeAssistantTuyaData,
      alistGet ((async_setup_entry hass entry o).state.domainData.getD [])
        entry.entry_id = some td := by
  simp only [async_setup_entry] at h ⊢
  revert h
  cases hA : dictGet entry.data CONF_APP_TYPE with
  | some v => intro h; simp at h
  | none =>
    cases hS : alistGet (hass.domainData.getD []) entry.entry_id with
    | some tuya =>
      intro _
      obtain ⟨td2, hg, _, _⟩ := setupSession_stored
        ⟨some (hass.domainData.getD []), hass.registry, hass.platformsLoaded,
          hass.nextManagerUid, hass.nextListenerUid⟩
        entry.entry_id tuya o hS
      exact ⟨td2, hg⟩
    | none =>
      cases hU : dictGet entry.data CONF_USER_CODE with
      | none => intro h; simp at h
      | some uc =>
        cases hT : dictGet entry.data CONF_TERMINAL_ID with
        | none => intro h; simp at h
        | some tid =>
          cases hE : dictGet entry.data CONF_ENDPOINT with
          | none => intro h; simp at h
          | some ep =>
            cases hI : dictGet entry.data CONF_TOKEN_INFO with
            | none => intro h; simp at h
            | some ti =>
              intro _
              obtain ⟨td2, hg, _, _⟩ := setupSession_stored
                ⟨some (alistSet (hass.domainData.getD []) entry.entry_id
                    ⟨⟨hass.nextManagerUid, TUYA_CLIENT_ID, uc, tid, ep, ti,
                      [], none, [hass.nextListenerUid]⟩, hass.nextListenerUid⟩),
                  hass.registry, hass.platformsLoaded,
                  hass.nextManagerUid + 1, hass.nextListenerUid + 1⟩
                entry.entry_id
                ⟨⟨hass.nextManagerUid, TUYA_CLIENT_ID, uc, tid, ep, ti,
                  [], none, [hass.nextListenerUid]⟩, hass.nextListenerUid⟩
                o
                (alistGet_alistSet_self (hass.domainData.getD [])
                  entry.entry_id
                  ⟨⟨hass.nextManagerUid, TUYA_CLIENT_ID, uc, tid, ep, ti,
                    [], none, [hass.nextListenerUid]⟩, hass.nextListenerUid⟩)
              exact ⟨td2, hg⟩

theorem setup_reuse_run (s : HassState) (entry : ConfigEntry) (o : SetupOracle)
    (td : HomeAssistantTuyaData)
    (hauth : dictGet entry.data CONF_APP_TYPE = none)
    (hstored : alistGet (s.domainData.getD []) entry.entry_id = some td) :
    async_setup_entry s entry o =
      setupSession { s with domainData := some (s.domainData.getD []) }
        (s.domainData.getD []) entry.entry_id td o := by
  simp only [async_setup_entry]
  rw [hauth, hstored]

/-- C3: `async_setup_entry` is idempotent in session identity: after a
successful run, a second run for the same entry constructs no new
manager or listener (the identity counters are unchanged) and the
session stored under the entry id afterwards is the very session stored
by the first run (same manager identity, same listener). -/
theorem setup_session_identity (hass : HassState) (entry : ConfigEntry)
    (o1 o2 : SetupOracle)
    (h1 : (async_setup_entry hass entry o1).error = none) :
    (async_setup_entry (async_setup_entry hass entry o1).state entry
          o2).state.nextManagerUid =
        (async_setup_entry hass entry o1).state.nextManagerUid ∧
    (async_setup_entry (async_setup_entry hass entry o1).state entry
          o2).state.nextListenerUid =
        (async_setup_entry hass entry o1).state.nextListenerUid ∧
    ∃ td1 td2 : HomeAssistantTuyaData,
      alistGet ((async_setup_entry hass entry o1).state.domainData.getD [])
          entry.entry_id = some td1 ∧
      alistGet ((async_setup_entry (async_setup_entry hass entry o1).state
            entry o2).state.domainData.getD []) entry.entry_id = some td2 ∧
      td2.manager.uid = td1.manager.uid ∧
      td2.listener = td1.listener := by
  obtain ⟨td1, hstored⟩ := setup_stores hass entry o1 h1
  have hauth := setup_auth_none hass entry o1 h1
  rw [setup_reuse_run (async_setup_entry hass entry o1).state entry o2 td1
    hauth hstored]
  obtain ⟨td2, hg, huid, hl⟩ := setupSession_stored
    ⟨some ((async_setup_entry hass entry o1).state.domainData.getD []),
      (async_setup_entry hass entry o1).state.registry,
      (async_setup_entry hass entry o1).state.platformsLoaded,
      (async_setup_entry hass entry o1).state.nextManagerUid,
      (async_setup_entry hass entry o1).state.nextListenerUid⟩
    entry.entry_id td1 o2 hstored
  exact ⟨(setupSession_counters _ _ _ _ _).1,
    (setupSession_counters _ _ _ _ _).2,
    td1, td2, hstored, hg, huid, hl⟩

/-- Witness for C3: a concrete first run succeeds; the second run keeps
the counters and the stored session's identity. -/
theorem setup_session_identity_witness :
    (async_setup_entry
        (async_setup_entry ⟨none, ⟨[], 0⟩, [], 0, 0⟩
          ⟨"e1", [(CONF_USER_CODE, Val.str "u"), (CONF_TERMINAL_ID, Val.str "t"),
            (CONF_ENDPOINT, Val.str "ep"), (CONF_TOKEN_INFO, Val.blob 0)]⟩
          ⟨false, false, [⟨"a", "l1", "p", 0⟩], true, 5⟩).state
        ⟨"e1", [(CONF_USER_CODE, Val.str "u"), (CONF_TERMINAL_ID, Val.str "t"),
          (CONF_ENDPOINT, Val.str "ep"), (CONF_TOKEN_INFO, Val.blob 0)]⟩
        ⟨false, false, [⟨"a", "l1", "p", 0⟩], true, 6⟩).state.nextManagerUid =
      (async_setup_entry ⟨none, ⟨[], 0⟩, [], 0, 0⟩
        ⟨"e1", [(CONF_USER_CODE, Val.str "u"), (CONF_TERMINAL_ID, Val.str "t"),
          (CONF_ENDPOINT, Val.str "ep"), (CONF_TOKEN_INFO, Val.blob 0)]⟩
        ⟨false, false, [⟨"a", "l1", "p", 0⟩], true, 5⟩).state.nextManagerUid ∧
    ∃ td1 td2 : HomeAssistantTuyaData,
      alistGet ((async_setup_entry ⟨none, ⟨[], 0⟩, [], 0, 0⟩
          ⟨"e1", [(CONF_USER_CODE, Val.str "u"), (CONF_TERMINAL_ID, Val.str "t"),
            (CONF_ENDPOINT, Val.str "ep"), (CONF_TOKEN_INFO, Val.blob 0)]⟩
          ⟨false, false, [⟨"a", "l1", "p", 0⟩], true, 5⟩).state.domainData.getD [])
          "e1" = some td1 ∧
      alistGet ((async_setup_entry
          (async_setup_entry ⟨none, ⟨[], 0⟩, [], 0, 0⟩
            ⟨"e1", [(CONF_USER_CODE, Val.str "u"), (CONF_TERMINAL_ID, Val.str "t"),
              (CONF_ENDPOINT, Val.str "ep"), (CONF_TOKEN_INFO, Val.blob 0)]⟩
            ⟨false, false, [⟨"a", "l1", "p", 0⟩], true, 5⟩).state
          ⟨"e1", [(CONF_USER_CODE, Val.str "u"), (CONF_TERMINAL_ID, Val.str "t"),
            (CONF_ENDPOINT, Val.str "ep"), (CONF_TOKEN_INFO, Val.blob 0)]⟩
          ⟨false, false, [⟨"a", "l1", "p", 0⟩], true, 6⟩).state.domainData.getD [])
          "e1" = some td2 ∧
      td2.manager.uid = td1.manager.uid ∧
      td2.listener = td1.listener := by
  have h := setup_session_identity ⟨none, ⟨[], 0⟩, [], 0, 0⟩
    ⟨"e1", [(CONF_USER_CODE, Val.str "u"), (CONF_TERMINAL_ID, Val.str "t"),
      (CONF_ENDPOINT, Val.str "ep"), (CONF_TOKEN_INFO, Val.blob 0)]⟩
    ⟨false, false, [⟨"a", "l1", "p", 0⟩], true, 5⟩
    ⟨false, false, [⟨"a", "l1", "p", 0⟩], true, 6⟩
    (by decide)
  exact ⟨h.1, h.2.2⟩

end Tuya
